import Mathlib

/-!
Shallow embedding of the SCORM sushi-chef script (sushichef.py): the manifest
reader, media matcher, outline walker and quiz reconstructor, together with
theorems checking the specification's claims against them.

Python values are modelled as follows: XML elements become the inductive
`XElem` (tag, attributes, text, children); optional values become `Option`;
code that can raise becomes `Except PyErr`; Python string operations
(`str.replace`, `os.path.splitext`, `str.strip`, `os.path.basename`) are
translated to executable functions on `List Char` / `String`.
-/

/-- Python runtime errors that the translated code can raise. -/
inductive PyErr where
  | indexError
  | keyError
  | typeError
  | attributeError
deriving DecidableEq

/-- An XML element as seen through lxml: a tag, an attribute list, optional
text content, and an ordered list of child elements. -/
inductive XElem where
  | mk (tag : String) (attrs : List (String × String)) (text : Option String)
       (children : List XElem)

def XElem.tag : XElem → String
  | .mk t _ _ _ => t

def XElem.attrs : XElem → List (String × String)
  | .mk _ a _ _ => a

def XElem.text : XElem → Option String
  | .mk _ _ t _ => t

def XElem.children : XElem → List XElem
  | .mk _ _ _ c => c

/-- `element.get(key)`: attribute lookup, `None` when absent. -/
def XElem.get (e : XElem) (k : String) : Option String :=
  (e.attrs.find? (fun p => p.1 = k)).map Prod.snd

/-- `element.findall(tag)`: all children with the given tag, in order. -/
def XElem.findall (e : XElem) (t : String) : List XElem :=
  e.children.filter (fun c => c.tag = t)

/-- `element.find(tag)`: the first child with the given tag, if any. -/
def XElem.find (e : XElem) (t : String) : Option XElem :=
  e.children.find? (fun c => c.tag = t)

/-- Python `"{}".format(x)` for an optional string: `None` prints as "None". -/
def pyFmt : Option String → String
  | none => "None"
  | some s => s

/-- Python truthiness of an optional string attribute value: `None` and the
empty string are falsy, every other string is truthy. -/
def pyTruthy : Option String → Bool
  | none => false
  | some s => s != ""

/-- The scan behind Python `s.replace(pat, rep)`: at each position, if the
pattern starts here, emit the replacement and jump past the match, else keep
the character. Structurally recursive on a fuel that the scan never
exhausts, since every step consumes at least one character. -/
def listReplaceAux (pat rep : List Char) : Nat → List Char → List Char
  | 0, s => s
  | _ + 1, [] => []
  | fuel + 1, c :: cs =>
    if pat.isPrefixOf (c :: cs) ∧ pat ≠ [] then
      rep ++ listReplaceAux pat rep fuel (cs.drop (pat.length - 1))
    else
      c :: listReplaceAux pat rep fuel cs

/-- Python `v.endswith(t)`: suffix test on the character lists. -/
def pyEndsWith (v t : String) : Bool :=
  t.data.isSuffixOf v.data

/-- Python `s.replace(pat, rep)` on character lists (all occurrences,
scanned left to right, non-overlapping), for a non-empty pattern. -/
def listReplace (pat rep s : List Char) : List Char :=
  listReplaceAux pat rep s.length s

/-- Python `s.replace(pat, rep)` on strings. -/
def pyReplace (s pat rep : String) : String :=
  String.mk (listReplace pat.data rep.data s.data)

/-- Python `s.strip()`: drop whitespace from both ends. -/
def pyStrip (s : List Char) : List Char :=
  ((s.dropWhile Char.isWhitespace).reverse.dropWhile Char.isWhitespace).reverse

/-- `s.rfind(c)` as in Python: index of the last occurrence, or `-1`. -/
def rfindAux (c : Char) : List Char → Nat → Int → Int
  | [], _, acc => acc
  | x :: xs, i, acc => rfindAux c xs (i + 1) (if x = c then Int.ofNat i else acc)

def rfindI (p : List Char) (c : Char) : Int :=
  rfindAux c p 0 (-1)

/-- The root part of `os.path.splitext(p)` (posix rules): split at the last
dot if it lies after the last slash and the base name is not made of dots
only up to that point. -/
def splitextRoot (p : List Char) : List Char :=
  let si := rfindI p '/'
  let di := rfindI p '.'
  if si < di ∧ ¬ (((p.drop (si + 1).toNat).take (di - (si + 1)).toNat).all (fun ch => ch = '.')) then
    p.take di.toNat
  else
    p

/-- `os.path.basename(p)`: everything after the last slash. -/
def basenameS (s : String) : String :=
  String.mk (s.data.drop ((rfindI s.data '/') + 1).toNat)

/-- The fixed discard set for level0 names in `get_course`. -/
def discarded : List String := ["Homepage", "Print your certificate"]

/-- The fields of a ricecooker `SingleSelectQuestion` that the script sets. -/
structure SingleSelectQuestion where
  id : String
  question : Option String
  all_answers : List (Option String)
  correct_answer : Option String
deriving DecidableEq

/-- The fields of a ricecooker `ExerciseNode` that the script sets
(constant fields such as the license are omitted). -/
structure ExerciseNode where
  source_id : String
  title : String
  author : String
  description : String
  questions : List SingleSelectQuestion
deriving DecidableEq

/-- The fields of a ricecooker `VideoNode` that the script sets, with the
two attached file paths (video and subtitle). -/
structure VideoNode where
  title : Option String
  author : String
  source_id : String
  path : String
  subtitle_path : String
deriving DecidableEq

/-- A child of a subtopic: a video node or an exercise node. -/
inductive ChildNode where
  | video (v : VideoNode)
  | exercise (e : ExerciseNode)
deriving DecidableEq

/-- The fields of a ricecooker `TopicNode` that the script sets. -/
structure TopicNode where
  title : String
  source_id : String
  description : Option String
  children : List ChildNode
deriving DecidableEq

/-- One iteration of the loop in `get_quiz_from_objective`: a question
element is turned into a quiz question (`some`), skipped (`none`), or the
iteration raises. A "choice" question with a prompt but whose correct-flagged
choice list is empty raises IndexError (the `[0]` on the filtered list). -/
def quizItem (name : String) (item : XElem) : Except PyErr (Option SingleSelectQuestion) :=
  if XElem.get item "type" = some "choice" then
    match XElem.find item "prompt" with
    | none => .ok none
    | some prompt =>
      match (XElem.findall item "choice").filter (fun c => pyTruthy (XElem.get c "correct")) with
      | [] => .error .indexError
      | c :: _ =>
        .ok (some
          { id := "question_" ++ pyReplace name " " "_" ++ "_" ++ pyFmt (XElem.get item "id") ++ "_id"
            question := prompt.text
            all_answers := (XElem.findall item "choice").map XElem.text
            correct_answer := c.text })
  else
    .ok none

/-- The loop of `get_quiz_from_objective` over the question elements. -/
def quizLoop (name : String) : List XElem → Except PyErr (List SingleSelectQuestion)
  | [] => .ok []
  | item :: rest =>
    match quizItem name item with
    | .error e => .error e
    | .ok none => quizLoop name rest
    | .ok (some q) =>
      match quizLoop name rest with
      | .error e => .error e
      | .ok qs => .ok (q :: qs)

/-- `get_quiz_from_objective`: rebuild the single-select questions of one
objective element. -/
def get_quiz_from_objective (objective : XElem) : Except PyErr (List SingleSelectQuestion) :=
  quizLoop ((XElem.get objective "name").getD "") (XElem.findall objective "question")

/-- `get_exercise_node`: look up the objective whose id attribute equals the
reference (`[...][0]` raises IndexError when no objective matches) and build
the exercise node from its questions. -/
def get_exercise_node (idx : Option String) (objectives : List XElem) (lesson : String) :
    Except PyErr ExerciseNode :=
  match (objectives.filter (fun o => XElem.get o "id" = idx)).head? with
  | none => .error .indexError
  | some objective =>
    match get_quiz_from_objective objective with
    | .error e => .error e
    | .ok questions =>
      .ok { source_id := "questions_" ++ pyReplace ((XElem.get objective "name").getD "") " " "_" ++ "_id"
            title := "Knowledge check: " ++ (XElem.get objective "name").getD ""
            author := "Microsoft"
            description := "Knowledge check: " ++ lesson
            questions := questions }

/-- `tttl_from_mp4` inside `get_course`: derive the caption path from a video
path by substituting "/Videos/" with "/Captions/", probing the
"_Video_cc.ttml" candidate against the filesystem `fs`, and otherwise
returning the plain ".ttml" candidate without any further check. -/
def tttl_from_mp4 (fs : String → Bool) (mp4_file : String) : String :=
  let file_path := pyReplace mp4_file "/Videos/" "/Captions/"
  let root := String.mk (pyStrip (splitextRoot file_path.data))
  let ttml_file := root ++ "_Video_cc.ttml"
  if fs ttml_file then ttml_file else root ++ ".ttml"

/-- One iteration of the video loop in `get_course`: a child of a level1
group at enumeration index `idx`. Non-video tags are ignored; a declared
fragment with no suffix match among the mp4 paths is silently dropped.
`v.endswith(None)` raises TypeError, but only when some path is tested. -/
def processVideo (fs : String → Bool) (mp4s : List String) (level1 : XElem) (idx : Nat)
    (video : XElem) : Except PyErr (Option ChildNode) :=
  if video.tag = "video" then
    match XElem.get video "fileName" with
    | none => if mp4s.isEmpty then .ok none else .error .typeError
    | some frag =>
      match mp4s.filter (fun v => pyEndsWith v frag) with
      | [] => .ok none
      | m :: _ =>
        .ok (some (ChildNode.video
          { title :=
              if idx = 0 then XElem.get level1 "name"
              else some (pyFmt (XElem.get level1 "name") ++ "-" ++ toString idx ++ " part")
            author := "Microsoft"
            source_id := basenameS m ++ "_" ++ pyFmt (XElem.get level1 "pageId") ++ "_id"
            path := m
            subtitle_path := tttl_from_mp4 fs m }))
  else
    .ok none

/-- The `enumerate(videos)` loop of `get_course`, collecting video nodes in
order. -/
def processVideos (fs : String → Bool) (mp4s : List String) (level1 : XElem) :
    List (Nat × XElem) → Except PyErr (List ChildNode)
  | [] => .ok []
  | (idx, video) :: rest =>
    match processVideo fs mp4s level1 idx video with
    | .error e => .error e
    | .ok none => processVideos fs mp4s level1 rest
    | .ok (some n) =>
      match processVideos fs mp4s level1 rest with
      | .error e => .error e
      | .ok ns => .ok (n :: ns)

/-- Processing of one level1 group in `get_course`: a group named
"Knowledge check" becomes an exercise node, any other group contributes its
matched video children. -/
def processLevel1 (fs : String → Bool) (mp4s : List String) (objectives : List XElem)
    (level0_name : String) (level1 : XElem) : Except PyErr (List ChildNode) :=
  if XElem.get level1 "name" = some "Knowledge check" then
    match get_exercise_node (XElem.get level1 "objectives") objectives level0_name with
    | .error e => .error e
    | .ok node => .ok [ChildNode.exercise node]
  else
    processVideos fs mp4s level1 level1.children.enum

/-- The loop over the level1 groups after the first (placeholder) child. -/
def processLevel1s (fs : String → Bool) (mp4s : List String) (objectives : List XElem)
    (level0_name : String) : List XElem → Except PyErr (List ChildNode)
  | [] => .ok []
  | l1 :: rest =>
    match processLevel1 fs mp4s objectives level0_name l1 with
    | .error e => .error e
    | .ok ns =>
      match processLevel1s fs mp4s objectives level0_name rest with
      | .error e => .error e
      | .ok ms => .ok (ns ++ ms)

/-- Processing of one level0 element in `get_course`: skip discarded names
and elements with at most one child; otherwise build a subtopic whose
description is the text of the first grandchild's first child (IndexError
when the placeholder has no children). -/
def processLevel0 (fs : String → Bool) (mp4s : List String) (objectives : List XElem)
    (level0 : XElem) : Except PyErr (Option TopicNode) :=
  let level0_name := (XElem.get level0 "name").getD ""
  if level0_name ∈ discarded then .ok none
  else if level0.children.length ≤ 1 then .ok none
  else
    match level0.children with
    | [] => .ok none
    | first :: rest =>
      match first.children with
      | [] => .error .indexError
      | d :: _ =>
        match processLevel1s fs mp4s objectives level0_name rest with
        | .error e => .error e
        | .ok children =>
          .ok (some
            { title := level0_name
              source_id := pyReplace level0_name " " "_" ++ "_id"
              description := d.text
              children := children })

/-- The walk over all level0 elements of the pages document. -/
def walkLevel0s (fs : String → Bool) (mp4s : List String) (objectives : List XElem) :
    List XElem → Except PyErr (List TopicNode)
  | [] => .ok []
  | l0 :: rest =>
    match processLevel0 fs mp4s objectives l0 with
    | .error e => .error e
    | .ok none => walkLevel0s fs mp4s objectives rest
    | .ok (some t) =>
      match walkLevel0s fs mp4s objectives rest with
      | .error e => .error e
      | .ok ts => .ok (t :: ts)

/-- A value in the dictionary produced by `xmltodict.parse`: `None`, a
string, or a nested dictionary. -/
inductive XVal where
  | null
  | str (s : String)
  | dict (entries : List (String × XVal))

mutual
/-- `xmltodict` conversion of an element (for elements without repeated
child tags): an element with no attributes and no children becomes its text
(or `None`); otherwise a dictionary with "@"-prefixed attribute keys, one
key per child tag, and a "#text" key when text is present. -/
def xvalOf : XElem → XVal
  | .mk _ attrs text children =>
    if attrs.isEmpty && children.isEmpty then
      match text with
      | none => .null
      | some t => .str t
    else
      .dict ((attrs.map (fun p => ("@" ++ p.1, XVal.str p.2)))
        ++ xvalChildren children
        ++ (match text with | none => [] | some t => [("#text", XVal.str t)]))

def xvalChildren : List XElem → List (String × XVal)
  | [] => []
  | c :: cs => (c.tag, xvalOf c) :: xvalChildren cs
end

/-- Python `d[k]` on an `xmltodict` value: KeyError when the key is absent,
TypeError when the value is not a dictionary (e.g. `None[k]`). -/
def dictGet (v : XVal) (k : String) : Except PyErr XVal :=
  match v with
  | .dict es =>
    match es.find? (fun p => p.1 = k) with
    | some p => .ok p.2
    | none => .error .keyError
  | _ => .error .typeError

/-- Python `v.get(k, {})`: dictionary lookup with an empty-dict default;
AttributeError when `v` is not a dictionary (`None.get` / `str.get`). -/
def pyGetDict (v : XVal) (k : String) : Except PyErr XVal :=
  match v with
  | .dict es => .ok (((es.find? (fun p => p.1 = k)).map Prod.snd).getD (.dict []))
  | _ => .error .attributeError

/-- Python `v.get(k)`: dictionary lookup with a `None` default;
AttributeError when `v` is not a dictionary. -/
def pyGetNone (v : XVal) (k : String) : Except PyErr XVal :=
  match v with
  | .dict es => .ok (((es.find? (fun p => p.1 = k)).map Prod.snd).getD .null)
  | _ => .error .attributeError

/-- `mt.find("lom/general")`: the first "general" child of the first "lom"
child that has one, in document order. -/
def findLomGeneral (mt : XElem) : Option XElem :=
  (XElem.findall mt "lom").findSome? (fun l => XElem.find l "general")

/-- The `mt.find("lom/general") or etree.Element("general")` expression: an
lxml element is falsy when it has no children, so a missing or childless
general section is replaced by a fresh empty "general" element. -/
def general_section (mt : XElem) : XElem :=
  match findLomGeneral mt with
  | some e => if e.children.isEmpty then XElem.mk "general" [] none [] else e
  | none => XElem.mk "general" [] none []

/-- `general[k].get("langstring", {}).get("#text")` for `k` either "title"
or "description". -/
def chainGet (general : XVal) (k : String) : Except PyErr XVal :=
  match dictGet general k with
  | .error e => .error e
  | .ok t1 =>
    match pyGetDict t1 "langstring" with
    | .error e => .error e
    | .ok t2 => pyGetNone t2 "#text"

/-- Lines 178-181 of `get_course`: build the general section (with the
placeholder fallback), convert it with `xmltodict.parse(etree.tostring(..))`
(whose top-level dictionary is keyed by the root tag), and extract the
lesson title and description. -/
def manifestTitleDesc (mt : XElem) : Except PyErr (XVal × XVal) :=
  match dictGet
      (XVal.dict [((general_section mt).tag, xvalOf (general_section mt))]) "general" with
  | .error e => .error e
  | .ok general =>
    match chainGet general "title" with
    | .error e => .error e
    | .ok lesson_title =>
      match chainGet general "description" with
      | .error e => .error e
      | .ok lesson_desc => .ok (lesson_title, lesson_desc)

/-- Whether an `Except` computation raised. -/
def isPyError : Except PyErr α → Bool
  | .error _ => true
  | .ok _ => false

/-- An element of a namespaced lxml tree: a namespace URI (empty string for
no namespace), a local tag name, and children. -/
inductive NElem where
  | mk (uri : String) (localName : String) (children : List NElem)

mutual
/-- `strip_ns_prefix`: every element in the tree whose namespace URI is
non-empty gets its tag rewritten to the bare local name (so its namespace
URI becomes empty); other elements are untouched. -/
def strip_ns_prefix : NElem → NElem
  | .mk uri localName children =>
    .mk (if uri ≠ "" then "" else uri) localName (stripChildren children)

def stripChildren : List NElem → List NElem
  | [] => []
  | c :: cs => strip_ns_prefix c :: stripChildren cs
end

mutual
theorem stripE_idem (e : NElem) : strip_ns_prefix ( strip_ns_prefix e) = strip_ns_prefix e := by
  cases e with
  | mk uri localName children =>
    by_cases h : uri = "" <;>
      simp [ strip_ns_prefix, h, stripL_idem children]

theorem stripL_idem (cs : List NElem) : stripChildren (stripChildren cs) = stripChildren cs := by
  cases cs with
  | nil => rfl
  | cons c cs => simp [stripChildren, stripE_idem c, stripL_idem cs]
end

/-- C9: namespace stripping is idempotent — applying `strip_ns_prefix` twice
to an element tree yields the same tree as applying it once. -/
theorem c9_strip_ns_idempotent (tree : NElem) :
    strip_ns_prefix ( strip_ns_prefix tree) = strip_ns_prefix tree :=
  stripE_idem tree

/-- C4: a level0 element with one or zero child elements is treated as empty
and the walker emits no subtopic node for it. -/
theorem c4_small_level0_skipped (fs : String → Bool) (mp4s : List String)
    (objectives : List XElem) (level0 : XElem)
    (h : level0.children.length ≤ 1) :
    processLevel0 fs mp4s objectives level0 = .ok none := by
  unfold processLevel0
  by_cases hd : ((XElem.get level0 "name").getD "") ∈ discarded <;> simp [hd, h]

theorem c4_small_level0_skipped_witness :
    processLevel0 (fun _ => false) [] []
        (XElem.mk "level0" [("name", "Solo topic")] none [XElem.mk "level1" [] none []])
      = .ok none :=
  c4_small_level0_skipped _ _ _ _ (by decide)

/-- C10: a "choice" question with no prompt child is silently skipped by
`get_quiz_from_objective` — the result is as if the question were absent,
whatever its choices and correct flags look like. -/
theorem c10_promptless_choice_skipped (objective : XElem) (qs1 qs2 : List XElem) (q : XElem)
    (hq : XElem.findall objective "question" = qs1 ++ q :: qs2)
    (ht : XElem.get q "type" = some "choice")
    (hp : XElem.find q "prompt" = none) :
    get_quiz_from_objective objective
      = quizLoop ((XElem.get objective "name").getD "") (qs1 ++ qs2) := by
  unfold get_quiz_from_objective
  rw [hq]
  clear hq
  induction qs1 with
  | nil =>
    have hskip : quizItem ((XElem.get objective "name").getD "") q = .ok none := by
      simp [quizItem, ht, hp]
    simp [quizLoop, hskip]
  | cons a as ih =>
    simp only [List.cons_append]
    cases hqa : quizItem ((XElem.get objective "name").getD "") a with
    | error e => simp [quizLoop, hqa]
    | ok o =>
      cases o with
      | none => simp [quizLoop, hqa, ih]
      | some qq => simp [quizLoop, hqa, ih]

def c10Question : XElem :=
  .mk "question" [("type", "choice"), ("id", "q9")] none
    [ .mk "choice" [] (some "Only answer") [] ]

def c10Objective : XElem :=
  .mk "objective" [("id", "obX"), ("name", "Check")] none [c10Question]

theorem c10_promptless_choice_skipped_witness :
    get_quiz_from_objective c10Objective = quizLoop "Check" ([] ++ []) :=
  c10_promptless_choice_skipped c10Objective [] [] c10Question rfl rfl rfl

theorem quizItem_error_is_indexError (name : String) (item : XElem) (e : PyErr)
    (h : quizItem name item = .error e) : e = .indexError := by
  unfold quizItem at h
  split at h
  · split at h
    · simp at h
    · split at h
      · simp only [Except.error.injEq] at h
        exact h.symm
      · simp at h
  · simp at h

theorem quizItem_no_correct_raises (name : String) (q : XElem)
    (ht : XElem.get q "type" = some "choice")
    (hp : (XElem.find q "prompt").isSome = true)
    (hfil : (XElem.findall q "choice").filter (fun c => pyTruthy (XElem.get c "correct")) = []) :
    quizItem name q = .error .indexError := by
  obtain ⟨p, hp⟩ := Option.isSome_iff_exists.mp hp
  simp [quizItem, ht, hp, hfil]

theorem quizLoop_raises_of_bad_question (name : String) (l : List XElem) (q : XElem)
    (hq : q ∈ l)
    (ht : XElem.get q "type" = some "choice")
    (hp : (XElem.find q "prompt").isSome = true)
    (hfil : (XElem.findall q "choice").filter (fun c => pyTruthy (XElem.get c "correct")) = []) :
    quizLoop name l = .error .indexError := by
  induction l with
  | nil => cases hq
  | cons a as ih =>
    rcases List.mem_cons.mp hq with rfl | hmem
    · simp [quizLoop, quizItem_no_correct_raises name q ht hp hfil]
    · cases hqa : quizItem name a with
      | error e =>
        rw [quizItem_error_is_indexError name a e hqa] at hqa
        simp [quizLoop, hqa]
      | ok o =>
        cases o with
        | none => simp [quizLoop, hqa, ih hmem]
        | some qq => simp [quizLoop, hqa, ih hmem]

def c2Question : XElem :=
  .mk "question" [("type", "choice"), ("id", "qc")] none
    [ .mk "choice" [] (some "Answer one") [], .mk "choice" [] (some "Answer two") [] ]

def c2Objective : XElem :=
  .mk "objective" [("id", "ob2"), ("name", "Lookup")] none [c2Question]

/-- C2 counterexample: a "choice" question with no choice flagged correct is
NOT always fatal — when the question also lacks a prompt child it is
silently skipped, and quiz reconstruction returns an empty question list
with no error. -/
theorem c2_counterexample :
    XElem.findall c2Objective "question" = [c2Question]
    ∧ XElem.get c2Question "type" = some "choice"
    ∧ (XElem.findall c2Question "choice").filter (fun c => pyTruthy (XElem.get c "correct")) = []
    ∧ get_quiz_from_objective c2Objective = .ok [] :=
  ⟨rfl, rfl, rfl, rfl⟩

/-- C2 (amended): an objectives-reference id matched by no objective makes
`get_exercise_node` raise IndexError, and a "choice" question that has a
prompt but no choice flagged correct makes `get_quiz_from_objective` raise
IndexError (a promptless choice question is instead skipped). -/
theorem c2_missing_objective_or_correct_fatal :
    (∀ (idx : Option String) (objectives : List XElem) (lesson : String),
        (∀ o ∈ objectives, ¬ XElem.get o "id" = idx) →
        get_exercise_node idx objectives lesson = .error .indexError)
    ∧ (∀ (objective q : XElem),
        q ∈ XElem.findall objective "question" →
        XElem.get q "type" = some "choice" →
        (XElem.find q "prompt").isSome = true →
        (XElem.findall q "choice").filter (fun c => pyTruthy (XElem.get c "correct")) = [] →
        get_quiz_from_objective objective = .error .indexError) := by
  constructor
  · intro idx objectives lesson h
    have hfil : objectives.filter (fun o => XElem.get o "id" = idx) = [] := by
      rw [List.filter_eq_nil_iff]
      intro o ho
      simpa using h o ho
    simp [get_exercise_node, hfil]
  · intro objective q hq ht hp hfil
    exact quizLoop_raises_of_bad_question _ _ q hq ht hp hfil

def c2BadQuestion : XElem :=
  .mk "question" [("type", "choice"), ("id", "qb")] none
    [ .mk "prompt" [] (some "Which one?") [],
      .mk "choice" [] (some "Answer one") [], .mk "choice" [] (some "Answer two") [] ]

def c2BadObjective : XElem :=
  .mk "objective" [("id", "ob3"), ("name", "Bad")] none [c2BadQuestion]

theorem c2_missing_objective_or_correct_fatal_witness :
    get_exercise_node (some "missing") [c2Objective] "Lesson" = .error .indexError
    ∧ get_quiz_from_objective c2BadObjective = .error .indexError :=
  ⟨c2_missing_objective_or_correct_fatal.1 (some "missing") [c2Objective] "Lesson"
      (by intro o ho; rw [List.mem_singleton] at ho; subst ho; decide),
    c2_missing_objective_or_correct_fatal.2 c2BadObjective c2BadQuestion
      (List.mem_singleton.mpr rfl) rfl rfl rfl⟩

theorem quizItem_success (name : String) (q p c : XElem) (cl : List XElem)
    (ht : XElem.get q "type" = some "choice")
    (hp : XElem.find q "prompt" = some p)
    (hc : (XElem.findall q "choice").filter (fun ch => pyTruthy (XElem.get ch "correct")) = c :: cl) :
    quizItem name q = .ok (some
      { id := "question_" ++ pyReplace name " " "_" ++ "_" ++ pyFmt (XElem.get q "id") ++ "_id"
        question := p.text
        all_answers := (XElem.findall q "choice").map XElem.text
        correct_answer := c.text }) := by
  simp [quizItem, ht, hp, hc]

def c7SkippedQuestion : XElem :=
  .mk "question" [("type", "choice"), ("id", "k2")] none
    [ .mk "choice" [("correct", "true")] (some "B right") [],
      .mk "choice" [] (some "B wrong") [] ]

def c7Objective : XElem :=
  .mk "objective" [("id", "ob7"), ("name", "Three")] none
    [ .mk "question" [("type", "choice"), ("id", "k1")] none
        [ .mk "prompt" [] (some "First?") [],
          .mk "choice" [("correct", "true")] (some "A right") [],
          .mk "choice" [] (some "A wrong") [] ],
      c7SkippedQuestion,
      .mk "question" [("type", "choice"), ("id", "k3")] none
        [ .mk "prompt" [] (some "Third?") [],
          .mk "choice" [("correct", "true")] (some "C right") [],
          .mk "choice" [] (some "C wrong") [] ] ]

/-- C7 counterexample: an objective with exactly 3 "choice" questions, each
with exactly one correct-flagged choice, does NOT always reconstruct to 3
questions — a question without a prompt child (here the second) is skipped,
leaving only 2 questions. -/
theorem c7_counterexample :
    (XElem.findall c7Objective "question").length = 3
    ∧ ((XElem.findall c7Objective "question").all (fun q =>
        (XElem.get q "type" == some "choice")
        && (((XElem.findall q "choice").filter (fun c => pyTruthy (XElem.get c "correct"))).length == 1))) = true
    ∧ Except.map List.length (get_quiz_from_objective c7Objective) = .ok 2 :=
  ⟨rfl, rfl, rfl⟩

/-- C7 (amended): for an objective with exactly 3 "choice" questions, each
having a prompt child and exactly one correct-flagged choice, the
reconstructed exercise has exactly 3 questions and each question's correct
answer is the text of that question's flagged choice. -/
theorem c7_three_choice_questions (obj q1 q2 q3 p1 p2 p3 c1 c2 c3 : XElem)
    (hqs : XElem.findall obj "question" = [q1, q2, q3])
    (ht1 : XElem.get q1 "type" = some "choice")
    (ht2 : XElem.get q2 "type" = some "choice")
    (ht3 : XElem.get q3 "type" = some "choice")
    (hp1 : XElem.find q1 "prompt" = some p1)
    (hp2 : XElem.find q2 "prompt" = some p2)
    (hp3 : XElem.find q3 "prompt" = some p3)
    (hc1 : (XElem.findall q1 "choice").filter (fun c => pyTruthy (XElem.get c "correct")) = [c1])
    (hc2 : (XElem.findall q2 "choice").filter (fun c => pyTruthy (XElem.get c "correct")) = [c2])
    (hc3 : (XElem.findall q3 "choice").filter (fun c => pyTruthy (XElem.get c "correct")) = [c3]) :
    get_quiz_from_objective obj = .ok
      [ { id := "question_" ++ pyReplace ((XElem.get obj "name").getD "") " " "_"
              ++ "_" ++ pyFmt (XElem.get q1 "id") ++ "_id"
          question := p1.text
          all_answers := (XElem.findall q1 "choice").map XElem.text
          correct_answer := c1.text },
        { id := "question_" ++ pyReplace ((XElem.get obj "name").getD "") " " "_"
              ++ "_" ++ pyFmt (XElem.get q2 "id") ++ "_id"
          question := p2.text
          all_answers := (XElem.findall q2 "choice").map XElem.text
          correct_answer := c2.text },
        { id := "question_" ++ pyReplace ((XElem.get obj "name").getD "") " " "_"
              ++ "_" ++ pyFmt (XElem.get q3 "id") ++ "_id"
          question := p3.text
          all_answers := (XElem.findall q3 "choice").map XElem.text
          correct_answer := c3.text } ] := by
  unfold get_quiz_from_objective
  rw [hqs]
  rw [quizLoop, quizItem_success _ q1 p1 c1 [] ht1 hp1 hc1]
  rw [quizLoop, quizItem_success _ q2 p2 c2 [] ht2 hp2 hc2]
  rw [quizLoop, quizItem_success _ q3 p3 c3 [] ht3 hp3 hc3]
  rfl

def c7GoodObjective : XElem :=
  .mk "objective" [("id", "ob7g"), ("name", "Good Obj")] none
    [ .mk "question" [("type", "choice"), ("id", "g1")] none
        [ .mk "prompt" [] (some "One?") [],
          .mk "choice" [("correct", "true")] (some "A right") [],
          .mk "choice" [] (some "A wrong") [] ],
      .mk "question" [("type", "choice"), ("id", "g2")] none
        [ .mk "prompt" [] (some "Two?") [],
          .mk "choice" [] (some "B wrong") [],
          .mk "choice" [("correct", "yes")] (some "B right") [] ],
      .mk "question" [("type", "choice"), ("id", "g3")] none
        [ .mk "prompt" [] (some "Three?") [],
          .mk "choice" [("correct", "true")] (some "C right") [] ] ]

theorem c7_three_choice_questions_witness :
    get_quiz_from_objective c7GoodObjective = .ok
      [ { id := "question_Good_Obj_g1_id", question := some "One?"
          all_answers := [some "A right", some "A wrong"], correct_answer := some "A right" },
        { id := "question_Good_Obj_g2_id", question := some "Two?"
          all_answers := [some "B wrong", some "B right"], correct_answer := some "B right" },
        { id := "question_Good_Obj_g3_id", question := some "Three?"
          all_answers := [some "C right"], correct_answer := some "C right" } ] := by
  have h := c7_three_choice_questions c7GoodObjective
    (.mk "question" [("type", "choice"), ("id", "g1")] none
        [ .mk "prompt" [] (some "One?") [],
          .mk "choice" [("correct", "true")] (some "A right") [],
          .mk "choice" [] (some "A wrong") [] ])
    (.mk "question" [("type", "choice"), ("id", "g2")] none
        [ .mk "prompt" [] (some "Two?") [],
          .mk "choice" [] (some "B wrong") [],
          .mk "choice" [("correct", "yes")] (some "B right") [] ])
    (.mk "question" [("type", "choice"), ("id", "g3")] none
        [ .mk "prompt" [] (some "Three?") [],
          .mk "choice" [("correct", "true")] (some "C right") [] ])
    (.mk "prompt" [] (some "One?") []) (.mk "prompt" [] (some "Two?") [])
    (.mk "prompt" [] (some "Three?") [])
    (.mk "choice" [("correct", "true")] (some "A right") [])
    (.mk "choice" [("correct", "yes")] (some "B right") [])
    (.mk "choice" [("correct", "true")] (some "C right") [])
    rfl rfl rfl rfl rfl rfl rfl rfl rfl rfl
  exact h.trans (by rfl)

theorem filter_head?_eq_find? {α : Type} (p : α → Bool) (l : List α) :
    (l.filter p).head? = l.find? p := by
  induction l with
  | nil => rfl
  | cons a as ih =>
    by_cases h : p a
    · simp [List.filter_cons, h, List.find?_cons_of_pos _ h]
    · simp only [Bool.not_eq_true] at h
      simp [List.filter_cons, h, List.find?_cons_of_neg, ih]

theorem processVideo_matched (fs : String → Bool) (mp4s : List String) (level1 : XElem)
    (idx : Nat) (video : XElem) (frag m : String)
    (htag : video.tag = "video")
    (hfrag : XElem.get video "fileName" = some frag)
    (hm : mp4s.find? (fun v => pyEndsWith v frag) = some m) :
    processVideo fs mp4s level1 idx video = .ok (some (ChildNode.video
      { title :=
          if idx = 0 then XElem.get level1 "name"
          else some (pyFmt (XElem.get level1 "name") ++ "-" ++ toString idx ++ " part")
        author := "Microsoft"
        source_id := basenameS m ++ "_" ++ pyFmt (XElem.get level1 "pageId") ++ "_id"
        path := m
        subtitle_path := tttl_from_mp4 fs m })) := by
  have hh : (mp4s.filter (fun v => pyEndsWith v frag)).head? = some m := by
    rw [filter_head?_eq_find?]
    exact hm
  simp only [processVideo, htag, hfrag]
  cases hf : mp4s.filter (fun v => pyEndsWith v frag) with
  | nil => rw [hf] at hh; cases hh
  | cons x t =>
    rw [hf] at hh
    simp only [List.head?_cons, Option.some.injEq] at hh
    subst hh
    simp

theorem processVideo_unmatched (fs : String → Bool) (mp4s : List String) (level1 : XElem)
    (idx : Nat) (video : XElem) (frag : String)
    (htag : video.tag = "video")
    (hfrag : XElem.get video "fileName" = some frag)
    (hm : mp4s.find? (fun v => pyEndsWith v frag) = none) :
    processVideo fs mp4s level1 idx video = .ok none := by
  have hh : (mp4s.filter (fun v => pyEndsWith v frag)).head? = none := by
    rw [filter_head?_eq_find?]
    exact hm
  simp only [processVideo, htag, hfrag]
  cases hf : mp4s.filter (fun v => pyEndsWith v frag) with
  | nil => simp
  | cons x t => rw [hf] at hh; cases hh

/-- C5: for a declared video filename fragment, the matcher selects the
first enumerated mp4 path whose string ends with the fragment; when no
enumerated path ends with it, the video item is silently dropped with no
error. -/
theorem c5_media_match_first_suffix (fs : String → Bool) (mp4s : List String)
    (level1 video : XElem) (idx : Nat) (frag : String)
    (htag : video.tag = "video")
    (hfrag : XElem.get video "fileName" = some frag) :
    (∀ m, mp4s.find? (fun v => pyEndsWith v frag) = some m →
        processVideo fs mp4s level1 idx video = .ok (some (ChildNode.video
          { title :=
              if idx = 0 then XElem.get level1 "name"
              else some (pyFmt (XElem.get level1 "name") ++ "-" ++ toString idx ++ " part")
            author := "Microsoft"
            source_id := basenameS m ++ "_" ++ pyFmt (XElem.get level1 "pageId") ++ "_id"
            path := m
            subtitle_path := tttl_from_mp4 fs m })))
    ∧ (mp4s.find? (fun v => pyEndsWith v frag) = none →
        processVideo fs mp4s level1 idx video = .ok none) :=
  ⟨fun m hm => processVideo_matched fs mp4s level1 idx video frag m htag hfrag hm,
   fun hm => processVideo_unmatched fs mp4s level1 idx video frag htag hfrag hm⟩

def c5Level1 : XElem := .mk "level1" [("name", "Group"), ("pageId", "p7")] none []

def c5Video : XElem := .mk "video" [("fileName", "tail.mp4")] none []

theorem c5_media_match_first_suffix_witness :
    processVideo (fun _ => false) ["A/x.mp4", "B/tail.mp4"] c5Level1 0 c5Video
      = .ok (some (ChildNode.video
        { title := some "Group", author := "Microsoft", source_id := "tail.mp4_p7_id",
          path := "B/tail.mp4", subtitle_path := "B/tail.ttml" }))
    ∧ processVideo (fun _ => false) ["A/x.mp4"] c5Level1 0 c5Video = .ok none := by
  constructor
  · have h := (c5_media_match_first_suffix (fun _ => false) ["A/x.mp4", "B/tail.mp4"]
      c5Level1 c5Video 0 "tail.mp4" rfl rfl).1 "B/tail.mp4" rfl
    exact h.trans (by rfl)
  · exact (c5_media_match_first_suffix (fun _ => false) ["A/x.mp4"]
      c5Level1 c5Video 0 "tail.mp4" rfl rfl).2 rfl

theorem append_title_one (nm : String) :
    nm ++ "-" ++ toString 1 ++ " part" = nm ++ "-1 part" := by
  rw [String.append_assoc, String.append_assoc]
  rfl

/-- C6: when a level1 video group has two video children and both match
media files, the first video node is titled with the group's name and the
second is titled "<name>-1 part" (zero-based enumeration index 1). -/
theorem c6_second_video_title_index (fs : String → Bool) (mp4s : List String)
    (objectives : List XElem) (level0_name : String) (level1 v0 v1 : XElem)
    (nm f0 f1 m0 m1 : String)
    (hch : level1.children = [v0, v1])
    (hnm : XElem.get level1 "name" = some nm)
    (hkc : nm ≠ "Knowledge check")
    (ht0 : v0.tag = "video") (ht1 : v1.tag = "video")
    (hf0 : XElem.get v0 "fileName" = some f0)
    (hf1 : XElem.get v1 "fileName" = some f1)
    (hm0 : mp4s.find? (fun v => pyEndsWith v f0) = some m0)
    (hm1 : mp4s.find? (fun v => pyEndsWith v f1) = some m1) :
    processLevel1 fs mp4s objectives level0_name level1 = .ok
      [ ChildNode.video
          { title := some nm, author := "Microsoft"
            source_id := basenameS m0 ++ "_" ++ pyFmt (XElem.get level1 "pageId") ++ "_id"
            path := m0, subtitle_path := tttl_from_mp4 fs m0 },
        ChildNode.video
          { title := some (nm ++ "-1 part"), author := "Microsoft"
            source_id := basenameS m1 ++ "_" ++ pyFmt (XElem.get level1 "pageId") ++ "_id"
            path := m1, subtitle_path := tttl_from_mp4 fs m1 } ] := by
  have hvid0 := processVideo_matched fs mp4s level1 0 v0 f0 m0 ht0 hf0 hm0
  have hvid1 := processVideo_matched fs mp4s level1 1 v1 f1 m1 ht1 hf1 hm1
  unfold processLevel1
  rw [hnm, if_neg (by simpa using hkc), hch]
  simp only [List.enum, List.enumFrom, processVideos, hvid0, hvid1]
  simp [hnm, pyFmt, append_title_one]

def c6Level1 : XElem :=
  .mk "level1" [("name", "Pair"), ("pageId", "p2")] none
    [ .mk "video" [("fileName", "one.mp4")] none [],
      .mk "video" [("fileName", "two.mp4")] none [] ]

theorem c6_second_video_title_index_witness :
    processLevel1 (fun _ => false) ["d/one.mp4", "d/two.mp4"] [] "Topic" c6Level1 = .ok
      [ ChildNode.video
          { title := some "Pair", author := "Microsoft", source_id := "one.mp4_p2_id",
            path := "d/one.mp4", subtitle_path := "d/one.ttml" },
        ChildNode.video
          { title := some "Pair-1 part", author := "Microsoft", source_id := "two.mp4_p2_id",
            path := "d/two.mp4", subtitle_path := "d/two.ttml" } ] := by
  have h := c6_second_video_title_index (fun _ => false) ["d/one.mp4", "d/two.mp4"] [] "Topic"
    c6Level1 (.mk "video" [("fileName", "one.mp4")] none [])
    (.mk "video" [("fileName", "two.mp4")] none [])
    "Pair" "one.mp4" "two.mp4" "d/one.mp4" "d/two.mp4"
    rfl rfl (by decide) rfl rfl rfl rfl rfl rfl
  exact h.trans (by rfl)

theorem processLevel1_no_content (fs : String → Bool) (mp4s : List String)
    (objectives : List XElem) (level0_name : String) (l1 : XElem)
    (hkc : ¬ XElem.get l1 "name" = some "Knowledge check")
    (hch : l1.children = []) :
    processLevel1 fs mp4s objectives level0_name l1 = .ok [] := by
  unfold processLevel1
  rw [if_neg hkc, hch]
  rfl

theorem processLevel1s_no_content (fs : String → Bool) (mp4s : List String)
    (objectives : List XElem) (level0_name : String) (rest : List XElem)
    (h : ∀ e ∈ rest, ¬ XElem.get e "name" = some "Knowledge check" ∧ e.children = []) :
    processLevel1s fs mp4s objectives level0_name rest = .ok [] := by
  induction rest with
  | nil => rfl
  | cons a as ih =>
    have ha := h a (List.mem_cons_self a as)
    have hrec := ih (fun e he => h e (List.mem_cons_of_mem a he))
    simp [processLevel1s,
      processLevel1_no_content fs mp4s objectives level0_name a ha.1 ha.2, hrec]

/-- C3: a level0 element outside the discard set whose first child is the
description placeholder and whose remaining children are not knowledge-check
groups and contain nothing yields an empty subtopic node — the empty
subtopic is emitted, not suppressed. -/
theorem c3_empty_subtopic_emitted (fs : String → Bool) (mp4s : List String)
    (objectives : List XElem) (level0 ph d : XElem) (ds rest : List XElem) (nm : String)
    (hnm : XElem.get level0 "name" = some nm)
    (hdisc : nm ∉ discarded)
    (hch : level0.children = ph :: rest)
    (hrest : rest ≠ [])
    (hph : ph.children = d :: ds)
    (hcontent : ∀ e ∈ rest, ¬ XElem.get e "name" = some "Knowledge check" ∧ e.children = []) :
    processLevel0 fs mp4s objectives level0 = .ok (some
      { title := nm, source_id := pyReplace nm " " "_" ++ "_id"
        description := d.text, children := [] }) := by
  have hlen : ¬ (ph :: rest).length ≤ 1 := by
    cases rest with
    | nil => exact absurd rfl hrest
    | cons r rs => simp [List.length_cons]
  unfold processLevel0
  rw [hnm]
  simp only [Option.getD_some]
  rw [if_neg hdisc, hch, if_neg hlen]
  simp only [hph, processLevel1s_no_content fs mp4s objectives nm rest hcontent]

def c3Level0 : XElem :=
  .mk "level0" [("name", "Unit A")] none
    [ .mk "level1" [] none [ .mk "p" [] (some "About unit A") [] ],
      .mk "item" [("name", "Stray")] none [] ]

theorem c3_empty_subtopic_emitted_witness :
    processLevel0 (fun _ => false) [] [] c3Level0 = .ok (some
      { title := "Unit A", source_id := "Unit_A_id"
        description := some "About unit A", children := [] }) := by
  have h := c3_empty_subtopic_emitted (fun _ => false) [] [] c3Level0
    (.mk "level1" [] none [ .mk "p" [] (some "About unit A") [] ])
    (.mk "p" [] (some "About unit A") [])
    [] [ .mk "item" [("name", "Stray")] none [] ] "Unit A"
    rfl (by decide) rfl (List.cons_ne_nil _ _) rfl
    (by intro e he; rw [List.mem_singleton] at he; subst he; exact ⟨by decide, rfl⟩)
  exact h.trans (by rfl)

theorem findLomGeneral_tag (mt : XElem) (e : XElem) (h : findLomGeneral mt = some e) :
    e.tag = "general" := by
  obtain ⟨l, _, hl⟩ := List.exists_of_findSome?_eq_some h
  unfold XElem.find at hl
  have hp := List.find?_some hl
  simpa using hp

theorem general_section_tag (mt : XElem) : (general_section mt).tag = "general" := by
  unfold general_section
  cases h : findLomGeneral mt with
  | none => rfl
  | some e =>
    by_cases hc : e.children.isEmpty
    · simp only [hc, if_true]
      rfl
    · simp [hc, findLomGeneral_tag mt e h]

theorem manifestTitleDesc_eq (mt : XElem) :
    manifestTitleDesc mt
      = match chainGet (xvalOf (general_section mt)) "title" with
        | .error e => .error e
        | .ok lesson_title =>
          match chainGet (xvalOf (general_section mt)) "description" with
          | .error e => .error e
          | .ok lesson_desc => .ok (lesson_title, lesson_desc) := by
  unfold manifestTitleDesc
  rw [general_section_tag]
  rfl

theorem xvalChildren_find?_none (ch : List XElem) (k : String)
    (h : ∀ c ∈ ch, c.tag ≠ k) :
    (xvalChildren ch).find? (fun p => p.1 = k) = none := by
  induction ch with
  | nil => rfl
  | cons c cs ih =>
    have hc := h c (List.mem_cons_self c cs)
    rw [xvalChildren, List.find?_cons_of_neg]
    · exact ih (fun e he => h e (List.mem_cons_of_mem c he))
    · simpa using hc

theorem attrEntries_find?_none (attrs : List (String × String)) (k : String)
    (hk : k.data.head? ≠ some '@') :
    (attrs.map (fun p => ("@" ++ p.1, XVal.str p.2))).find? (fun p => p.1 = k) = none := by
  rw [List.find?_eq_none]
  rintro ⟨a, v⟩ hmem
  simp only [List.mem_map] at hmem
  obtain ⟨⟨a0, v0⟩, _, heq⟩ := hmem
  simp only [Prod.mk.injEq] at heq
  simp only [decide_eq_true_eq]
  intro hak
  apply hk
  rw [← hak, ← heq.1, String.data_append]
  rfl

theorem xvalOf_mk (tg : String) (attrs : List (String × String)) (tx : Option String)
    (ch : List XElem) :
    xvalOf (XElem.mk tg attrs tx ch)
      = if (attrs.isEmpty && ch.isEmpty) = true then
          (match tx with | none => XVal.null | some t => XVal.str t)
        else
          XVal.dict (attrs.map (fun p => ("@" ++ p.1, XVal.str p.2)) ++ xvalChildren ch ++
            (match tx with | none => [] | some t => [("#text", XVal.str t)])) := rfl

theorem chainGet_no_child_tag (g : XElem) (k : String)
    (hck : ∀ c ∈ g.children, c.tag ≠ k)
    (hhead : k.data.head? ≠ some '@')
    (htext : k ≠ "#text") :
    isPyError (chainGet (xvalOf g) k) = true := by
  cases g with
  | mk tg attrs tx ch =>
    simp only [XElem.children] at hck
    rw [xvalOf_mk]
    by_cases hb : (attrs.isEmpty && ch.isEmpty) = true
    · rw [if_pos hb]
      cases tx <;> rfl
    · rw [if_neg hb]
      have hattrs := attrEntries_find?_none attrs k hhead
      have hchild := xvalChildren_find?_none ch k hck
      have htxt :
          (match tx with
            | none => ([] : List (String × XVal))
            | some t => [("#text", XVal.str t)]).find? (fun (p : String × XVal) => p.1 = k)
            = none := by
        cases tx with
        | none => rfl
        | some t =>
          rw [List.find?_cons_of_neg]
          · rfl
          · simpa using fun hh => htext hh.symm
      simp [chainGet, dictGet, List.find?_append, hattrs, hchild, htxt, isPyError]

def c1Manifest : XElem :=
  .mk "metadata" [] none
    [ .mk "lom" [] none
        [ .mk "general" [] none
            [ .mk "description" [] none
                [ .mk "langstring" [("lang", "en-US")] (some "A course") [] ] ] ] ]

/-- C1 counterexample: a manifest whose metadata/general section has a
description but no title does NOT yield an empty/None title without error —
the title lookup raises KeyError. -/
theorem c1_counterexample :
    ((general_section c1Manifest).children.all (fun c => c.tag != "title")) = true
    ∧ manifestTitleDesc c1Manifest = .error PyErr.keyError :=
  ⟨rfl, rfl⟩

/-- C1 (amended): when the (placeholder-defaulted) general section has no
"title" child or no "description" child, the manifest reader raises a lookup
error instead of degrading to empty values — missing title/description
metadata is fatal. Only an absent or childless lom/general section is
replaced by an empty placeholder element, and the lookup on the placeholder
then fails as well. -/
theorem c1_missing_metadata_fatal (mt : XElem)
    (h : ((general_section mt).children.all (fun c => c.tag != "title")) = true
       ∨ ((general_section mt).children.all (fun c => c.tag != "description")) = true) :
    isPyError (manifestTitleDesc mt) = true := by
  rw [manifestTitleDesc_eq]
  rcases h with h | h
  · have h' : ∀ c ∈ (general_section mt).children, c.tag ≠ "title" := by
      rw [List.all_eq_true] at h
      intro c hcmem
      simpa using h c hcmem
    have ht := chainGet_no_child_tag (general_section mt) "title" h' (by decide) (by decide)
    cases hc : chainGet (xvalOf (general_section mt)) "title" with
    | error e => rfl
    | ok v => rw [hc] at ht; simp [isPyError] at ht
  · cases hc : chainGet (xvalOf (general_section mt)) "title" with
    | error e => rfl
    | ok v =>
      have h' : ∀ c ∈ (general_section mt).children, c.tag ≠ "description" := by
        rw [List.all_eq_true] at h
        intro c hcmem
        simpa using h c hcmem
      have hd := chainGet_no_child_tag (general_section mt) "description" h' (by decide) (by decide)
      cases hc2 : chainGet (xvalOf (general_section mt)) "description" with
      | error e2 => rfl
      | ok w => rw [hc2] at hd; simp [isPyError] at hd

def c1EmptyManifest : XElem := .mk "metadata" [] none []

theorem c1_missing_metadata_fatal_witness :
    isPyError (manifestTitleDesc c1EmptyManifest) = true :=
  c1_missing_metadata_fatal c1EmptyManifest (Or.inl rfl)

/-- Whether the pattern occurs (as a contiguous run) anywhere in the string. -/
def hasOcc (pat : List Char) : List Char → Bool
  | [] => false
  | c :: cs => pat.isPrefixOf (c :: cs) || hasOcc pat cs

theorem isPrefixOf_append_self (l r : List Char) : l.isPrefixOf (l ++ r) = true := by
  induction l with
  | nil => cases r <;> rfl
  | cons a as ih => simp [List.isPrefixOf, ih]

theorem listReplaceAux_fuel_congr (pat rep : List Char) :
    ∀ (f g : Nat) (s : List Char), s.length ≤ f → s.length ≤ g →
      listReplaceAux pat rep f s = listReplaceAux pat rep g s := by
  intro f
  induction f with
  | zero =>
    intro g s hf _
    have hnil : s = [] := List.eq_nil_of_length_eq_zero (Nat.le_zero.mp hf)
    subst hnil
    cases g <;> rfl
  | succ f ih =>
    intro g s hf hg
    cases s with
    | nil => cases g <;> rfl
    | cons c cs =>
      cases g with
      | zero => simp at hg
      | succ g =>
        simp only [List.length_cons, Nat.add_le_add_iff_right] at hf hg
        simp only [listReplaceAux]
        by_cases hcond : pat.isPrefixOf (c :: cs) = true ∧ pat ≠ []
        · rw [if_pos hcond, if_pos hcond]
          have hlf : (cs.drop (pat.length - 1)).length ≤ f := by
            rw [List.length_drop]
            omega
          have hlg : (cs.drop (pat.length - 1)).length ≤ g := by
            rw [List.length_drop]
            omega
          rw [ih g _ hlf hlg]
        · rw [if_neg hcond, if_neg hcond, ih g cs hf hg]

theorem listReplaceAux_no_occ (pat rep : List Char) :
    ∀ (f : Nat) (s : List Char), s.length ≤ f → hasOcc pat s = false →
      listReplaceAux pat rep f s = s := by
  intro f
  induction f with
  | zero =>
    intro s hf _
    have hnil : s = [] := List.eq_nil_of_length_eq_zero (Nat.le_zero.mp hf)
    subst hnil
    rfl
  | succ f ih =>
    intro s hf h
    cases s with
    | nil => rfl
    | cons c cs =>
      rw [hasOcc, Bool.or_eq_false_iff] at h
      simp only [List.length_cons, Nat.add_le_add_iff_right] at hf
      rw [listReplaceAux, if_neg]
      · rw [ih cs hf h.2]
      · intro hcond
        exact absurd hcond.1 (by simp [h.1])

theorem listReplaceAux_first_occ (pat rep r : List Char) (hpat : pat ≠ []) :
    ∀ (d : List Char) (f : Nat), (d ++ pat ++ r).length ≤ f →
      (∀ i < d.length, pat.isPrefixOf ((d ++ pat ++ r).drop i) = false) →
      listReplaceAux pat rep f (d ++ pat ++ r)
        = d ++ rep ++ listReplaceAux pat rep r.length r := by
  intro d
  induction d with
  | nil =>
    intro f hf h1
    simp only [List.nil_append] at hf ⊢
    cases pat with
    | nil => exact absurd rfl hpat
    | cons p pt =>
      cases f with
      | zero => simp at hf
      | succ f =>
        rw [List.cons_append, listReplaceAux, if_pos]
        · have hdrop : (pt ++ r).drop ((p :: pt).length - 1) = r := by
            simp only [List.length_cons, Nat.add_sub_cancel]
            exact List.drop_left pt r
          rw [hdrop]
          have hrlen : r.length ≤ f := by
            rw [List.cons_append, List.length_cons, List.length_append] at hf
            omega
          rw [listReplaceAux_fuel_congr (p :: pt) rep f r.length r hrlen (le_refl _)]
        · exact ⟨by rw [← List.cons_append]; exact isPrefixOf_append_self (p :: pt) r,
            hpat⟩
  | cons c d' ih =>
    intro f hf h1
    cases f with
    | zero => simp at hf
    | succ f =>
      have h0 : pat.isPrefixOf (c :: (d' ++ pat ++ r)) = false := by
        have := h1 0 (by simp)
        simpa using this
      have hf' : (d' ++ pat ++ r).length ≤ f := by
        simp only [List.cons_append, List.length_cons, Nat.add_le_add_iff_right] at hf
        simpa using hf
      have h1' : ∀ i < d'.length, pat.isPrefixOf ((d' ++ pat ++ r).drop i) = false := by
        intro i hi
        have := h1 (i + 1) (by simpa using Nat.succ_lt_succ hi)
        simpa [List.drop_succ_cons] using this
      show listReplaceAux pat rep (f + 1) (c :: (d' ++ pat ++ r)) = _
      rw [listReplaceAux, if_neg]
      · rw [ih f hf' h1']
        rfl
      · intro hcond
        rw [h0] at hcond
        exact Bool.noConfusion hcond.1

theorem listReplace_first_occ (pat rep r d : List Char) (hpat : pat ≠ [])
    (hocc : hasOcc pat r = false)
    (h1 : ∀ i < d.length, pat.isPrefixOf ((d ++ (pat ++ r)).drop i) = false) :
    listReplace pat rep (d ++ (pat ++ r)) = d ++ (rep ++ r) := by
  have h1L : ∀ i < d.length, pat.isPrefixOf ((d ++ pat ++ r).drop i) = false := by
    intro i hi
    rw [List.append_assoc]
    exact h1 i hi
  unfold listReplace
  rw [← List.append_assoc]
  rw [listReplaceAux_first_occ pat rep r hpat d _ (le_refl _) h1L]
  rw [listReplaceAux_no_occ pat rep r.length r (le_refl _) hocc]
  rw [List.append_assoc]

theorem data_mk (l : List Char) : (String.mk l).data = l := rfl

/-- C8: for a matched video path of the form d ++ "/Videos/" ++ s ++ ".mp4"
(the "/Videos/" segment occurring exactly once and s a plain stem), the
caption derivation substitutes "/Videos/" with "/Captions/", first probes
the "_Video_cc.ttml" candidate against the filesystem, and when that file
does not exist returns the ".ttml" candidate without checking its
existence. -/
theorem c8_caption_probe_order (fs : String → Bool) (d s : String)
    (h1 : ∀ i < d.data.length,
        "/Videos/".data.isPrefixOf
          ((d.data ++ ("/Videos/".data ++ (s.data ++ ".mp4".data))).drop i) = false)
    (h2 : hasOcc "/Videos/".data (s.data ++ ".mp4".data) = false)
    (h3 : splitextRoot (d.data ++ ("/Captions/".data ++ (s.data ++ ".mp4".data)))
        = d.data ++ ("/Captions/".data ++ s.data))
    (h4 : pyStrip (d.data ++ ("/Captions/".data ++ s.data))
        = d.data ++ ("/Captions/".data ++ s.data)) :
    tttl_from_mp4 fs (d ++ "/Videos/" ++ s ++ ".mp4")
      = if fs (d ++ "/Captions/" ++ s ++ "_Video_cc.ttml")
        then d ++ "/Captions/" ++ s ++ "_Video_cc.ttml"
        else d ++ "/Captions/" ++ s ++ ".ttml" := by
  have hX : String.mk (d.data ++ ("/Captions/".data ++ s.data)) = d ++ "/Captions/" ++ s := by
    apply String.ext
    simp [String.data_append, List.append_assoc]
  have hrep : pyReplace (d ++ "/Videos/" ++ s ++ ".mp4") "/Videos/" "/Captions/"
      = String.mk (d.data ++ ("/Captions/".data ++ (s.data ++ ".mp4".data))) := by
    unfold pyReplace
    congr 1
    have hdata : (d ++ "/Videos/" ++ s ++ ".mp4").data
        = d.data ++ ("/Videos/".data ++ (s.data ++ ".mp4".data)) := by
      simp [String.data_append, List.append_assoc]
    rw [hdata]
    exact listReplace_first_occ "/Videos/".data "/Captions/".data (s.data ++ ".mp4".data)
      d.data (by decide) h2 h1
  unfold tttl_from_mp4
  rw [hrep]
  simp only [data_mk]
  rw [h3, h4, hX]

theorem c8_caption_probe_order_witness :
    tttl_from_mp4 (fun p => p = "chefdata/DL/Captions/lesson1_Video_cc.ttml")
        "chefdata/DL/Videos/lesson1.mp4"
      = "chefdata/DL/Captions/lesson1_Video_cc.ttml"
    ∧ tttl_from_mp4 (fun _ => false) "chefdata/DL/Videos/lesson1.mp4"
      = "chefdata/DL/Captions/lesson1.ttml" := by
  constructor
  · have h := c8_caption_probe_order
      (fun p => p = "chefdata/DL/Captions/lesson1_Video_cc.ttml") "chefdata/DL" "lesson1"
      (by decide) (by decide) (by decide) (by decide)
    exact h.trans (by rfl)
  · have h := c8_caption_probe_order (fun _ => false) "chefdata/DL" "lesson1"
      (by decide) (by decide) (by decide) (by decide)
    exact h.trans (by rfl)
